import Mathlib

/-!
Shallow embedding of the `callable` Go package (lonebits/callable):
`response.go` (status taxonomy, `callError`, the low-level error writer) and
`callable.go` (options, `ServeHTTP`, CORS preflight, `handlePost`,
`validateToken`).  HTTP headers are modelled as ordered lists of key/value
pairs, the response writer as explicit state, JSON values as an inductive
type, and the external collaborators (`mime.ParseMediaType`, the Firebase
`auth.Client` verifier, the user handler) as function parameters.
-/

namespace callable

/-- A JSON value, as produced/consumed by encoding/json. -/
inductive Json where
  | null : Json
  | bool (b : Bool) : Json
  | num (n : Int) : Json
  | str (s : String) : Json
  | arr (elems : List Json) : Json
  | obj (fields : List (String × Json)) : Json
deriving Repr

/-- A chunk written to the HTTP response body: raw text (http.Error) or a
JSON document (json.Encoder.Encode). -/
inductive Chunk where
  | text (s : String) : Chunk
  | json (j : Json) : Chunk
deriving Repr

/-- http.Header.Get: first value for the key, or "" when absent. -/
def headerGet (h : List (String × String)) (k : String) : String :=
  match h.find? (fun p => p.1 = k) with
  | some p => p.2
  | none => ""

/-- http.Header.Values: all values recorded for the key, in order. -/
def headerValues (h : List (String × String)) (k : String) : List String :=
  (h.filter (fun p => p.1 = k)).map (fun p => p.2)

/-- http.Header.Add: appends a key/value pair. -/
def headerAdd (h : List (String × String)) (k v : String) : List (String × String) :=
  h ++ [(k, v)]

/-- http.Header.Set: replaces all values for the key by the single value. -/
def headerSet (h : List (String × String)) (k v : String) : List (String × String) :=
  (h.filter (fun p => ¬ p.1 = k)) ++ [(k, v)]

/-- The observable state of an http.ResponseWriter / httptest recorder:
headers, the status code once written, and the body chunks. -/
structure ResponseWriter where
  header : List (String × String)
  status : Option Nat
  body : List Chunk

/-- httptest.NewRecorder: fresh writer, nothing committed yet. -/
def newRecorder : ResponseWriter := ⟨[], none, []⟩

/-- ResponseWriter.WriteHeader: the first call commits the status code;
later calls are ignored. -/
def writeHeader (w : ResponseWriter) (code : Nat) : ResponseWriter :=
  match w.status with
  | none => { w with status := some code }
  | some _ => w

/-- ResponseWriter.Write: an implicit WriteHeader(200) on first write,
then the chunk is appended to the body. -/
def writeBody (w : ResponseWriter) (ch : Chunk) : ResponseWriter :=
  let w := writeHeader w 200
  { w with body := w.body ++ [ch] }

/-- An incoming HTTP request: method, headers, and the request body given as
the outcome of JSON-parsing it (`Except.error` models malformed JSON /
read failures such as EOF on an empty body). -/
structure HttpRequest where
  method : String
  headers : List (String × String)
  body : Except String Json

/-- response.go: StatusCode distinguishes between different error causes
(a Go int). -/
abbrev StatusCode := Int

abbrev InvalidArgument : StatusCode := 0
abbrev FailedPrecondition : StatusCode := 1
abbrev OutOfRange : StatusCode := 2
abbrev Unauthenticated : StatusCode := 3
abbrev PermissionDenied : StatusCode := 4
abbrev NotFound : StatusCode := 5
abbrev Aborted : StatusCode := 6
abbrev AlreadyExists : StatusCode := 7
abbrev ResourceExhausted : StatusCode := 8
abbrev Cancelled : StatusCode := 9
abbrev DataLoss : StatusCode := 10
abbrev Unknown : StatusCode := 11
abbrev Internal : StatusCode := 12
abbrev NotImplemented : StatusCode := 13
abbrev Unavailable : StatusCode := 14
abbrev DeadlineExceeded : StatusCode := 15

/-- response.go: the `statuses` map from StatusCode to (status string, HTTP
code); `none` models a key that is absent from the map. -/
def statuses (code : StatusCode) : Option (String × Nat) :=
  if code = InvalidArgument then some ("INVALID_ARGUMENT", 400)
  else if code = FailedPrecondition then some ("FAILED_PRECONDITION", 400)
  else if code = OutOfRange then some ("OUT_OF_RANGE", 400)
  else if code = Unauthenticated then some ("UNAUTHENTICATED", 401)
  else if code = PermissionDenied then some ("PERMISSION_DENIED", 403)
  else if code = NotFound then some ("NOT_FOUND", 404)
  else if code = Aborted then some ("ABORTED", 409)
  else if code = AlreadyExists then some ("ALREADY_EXISTS", 409)
  else if code = ResourceExhausted then some ("RESOURCE_EXHAUSTED", 429)
  else if code = Cancelled then some ("CANCELLED", 499)
  else if code = DataLoss then some ("DATA_LOSS", 500)
  else if code = Unknown then some ("UNKNOWN", 500)
  else if code = Internal then some ("INTERNAL", 500)
  else if code = NotImplemented then some ("NOT_IMPLEMENTED", 501)
  else if code = Unavailable then some ("UNAVAILABLE", 503)
  else if code = DeadlineExceeded then some ("DEADLINE_EXCEEDED", 504)
  else none

/-- The lookup `s, ok := statuses[code]; if !ok then s = statuses[Internal]`
from `newError`; the inner `getD` default is Go's zero value for the entry
type and is unreachable since `Internal` is in the map. -/
def statusOf (code : StatusCode) : String × Nat :=
  match statuses code with
  | some s => s
  | none => (statuses Internal).getD ("", 0)

/-- response.go: a callable error: canonical status string, HTTP code,
message. -/
structure callError where
  status : String
  code : Nat
  message : String
deriving Repr

/-- response.go: `newError` builds a callError from a StatusCode and the
(already fmt.Sprintf-formatted) message. -/
def newError (code : StatusCode) (message : String) : callError :=
  let s := statusOf code
  { status := s.1, code := s.2, message := message }

/-- response.go: `callError.Error()`: the status string alone, or
"STATUS message" when the message is non-empty. -/
def callError.errText (e : callError) : String :=
  if e.message.length > 0 then e.status ++ " " ++ e.message else e.status

/-- The JSON error envelope written by `callError.write`
(`errorResponse`/`errorData` in response.go). -/
def errorEnvelope (e : callError) : Json :=
  Json.obj [("error", Json.obj [("status", Json.str e.status), ("message", Json.str e.message)])]

/-- response.go: `callError.write`: Set Content-Type application/json (no
charset suffix), WriteHeader the mapped code, encode the error envelope. -/
def callError.write (e : callError) (w : ResponseWriter) : ResponseWriter :=
  let w := { w with header := headerSet w.header "Content-Type" "application/json" }
  let w := writeHeader w e.code
  writeBody w (Chunk.json (errorEnvelope e))

/-- net/http's http.Error: text/plain content type, nosniff, status code,
message plus newline as body. -/
def httpError (w : ResponseWriter) (msg : String) (code : Nat) : ResponseWriter :=
  let h := headerSet w.header "Content-Type" "text/plain; charset=utf-8"
  let h := headerSet h "X-Content-Type-Options" "nosniff"
  let w := writeHeader { w with header := h } code
  writeBody w (Chunk.text (msg ++ "\n"))

/-- A verified Firebase auth token; only the UID is consumed by the core. -/
structure AuthToken where
  UID : String
deriving Repr

/-- The external identity-verification capability
(`auth.Client.VerifyIDTokenAndCheckRevoked`): token text to verified token
or failure message. -/
abbrev AuthClient := String → Except String AuthToken

/-- callable.go: `Call` carries contextual information on the current call. -/
structure Call where
  UID : String
  IID : String
deriving Repr

/-- A Go `error` value as classified by `ServeHTTP`: a callError created via
`Error(code, msg)` (matched by errors.As), an error matching
context.Canceled / context.DeadlineExceeded under errors.Is, or a generic
error carrying only a message. -/
inductive GoErr where
  | call (code : StatusCode) (message : String) : GoErr
  | canceled (message : String) : GoErr
  | deadline (message : String) : GoErr
  | generic (message : String) : GoErr
deriving DecidableEq

/-- The `Error()` message of a GoErr. -/
def GoErr.message : GoErr → String
  | .call code msg => (newError code msg).errText
  | .canceled msg => msg
  | .deadline msg => msg
  | .generic msg => msg

/-- response.go: the exported `Error` constructor (returns `newError` as a
Go error value). -/
def Error (code : StatusCode) (message : String) : GoErr :=
  GoErr.call code message

/-- callable.go: a Callable holds the request/handler target and the
configuration set by options. -/
structure Callable (τ : Type) where
  request : τ
  authClient : Option AuthClient
  authRequired : Bool
  logger : Option Unit

/-- The semantics the user-supplied Request value must provide: how JSON is
decoded into it (encoding/json on the user's struct) and its Handle method. -/
structure RequestImpl (τ : Type) where
  decodeInto : τ → Json → Except String τ
  handle : τ → Call → Except GoErr Json

/-- callable.go: a configuration Option for a Callable (`authOption` /
`loggerOption`). -/
inductive ConfigOption where
  | auth (client : Option AuthClient) (required : Bool) : ConfigOption
  | logger (l : Unit) : ConfigOption

/-- callable.go: `Option.config`: apply one option to a Callable. -/
def applyOption (c : Callable τ) : ConfigOption → Callable τ
  | .auth client required => { c with authClient := client, authRequired := required }
  | .logger l => { c with logger := some l }

/-- callable.go: `New` builds a Callable from a Request target and options. -/
def New (request : τ) (opts : List ConfigOption) : Callable τ :=
  opts.foldl applyOption { request := request, authClient := none, authRequired := false, logger := none }

/-- callable.go: `WithAuth` panics (modelled as `none`) when the client is
nil, otherwise yields the auth option. -/
def WithAuth (client : Option AuthClient) (required : Bool) : Option ConfigOption :=
  match client with
  | none => none
  | some _ => some (ConfigOption.auth client required)

/-- callable.go: `WithLogger`. -/
def WithLogger (l : Unit) : ConfigOption :=
  ConfigOption.logger l

/-- strings.ToLower (ASCII range, which covers every header token the core
compares): lower-case each character. -/
def toLowerGo (s : String) : String := String.mk (s.data.map Char.toLower)

/-- Helper of `fields`: accumulate the current word (reversed) while
scanning the characters. -/
def fieldsGo (acc : List Char) : List Char → List String
  | [] => if acc = [] then [] else [String.mk acc.reverse]
  | c :: cs =>
    if c.isWhitespace then
      (if acc = [] then fieldsGo [] cs else String.mk acc.reverse :: fieldsGo [] cs)
    else fieldsGo (c :: acc) cs

/-- strings.Fields: split around runs of whitespace, dropping empties. -/
def fields (s : String) : List String := fieldsGo [] s.data

/-- callable.go: `validateToken` (lines 196-214): no-op when no auth client
is configured; otherwise parses the Authorization header and delegates to
the verifier. -/
def validateToken (c : Callable τ) (authHeader : String) : Except String (Option AuthToken) :=
  match c.authClient with
  | none => Except.ok none
  | some verify =>
    let parts := fields authHeader
    if parts.length = 0 ∧ c.authRequired then Except.error "missing Authorization header"
    else
      match parts with
      | [b, t] =>
        if ¬ b = "Bearer" then Except.error "unsupported Authorization header"
        else
          match verify t with
          | Except.error e => Except.error e
          | Except.ok tok => Except.ok (some tok)
      | _ => Except.error "unsupported Authorization header"

/-- mime.ParseMediaType lookup of a parameter value (Go map access, zero
value "" when absent). -/
def paramGet (mp : List (String × String)) (k : String) : String :=
  match mp.find? (fun p => p.1 = k) with
  | some p => p.2
  | none => ""

/-- callable.go lines 140-154: the Content-Type checks of `handlePost`, in
source order, parameterized by the external `mime.ParseMediaType`
(`parse`, returning the media type and its parameters or `none` on a parse
error). Returns the error to be returned by handlePost, or `none` when
negotiation passes. -/
def negotiate (parse : String → Option (String × List (String × String))) (ct : String) : Option GoErr :=
  if ct = "" then some (Error InvalidArgument "missing content type")
  else
    match parse ct with
    | none => some (Error InvalidArgument "invalid content type")
    | some (mt, mp) =>
      if ¬ mt = "application/json" then some (Error InvalidArgument "unsupported content type")
      else
        let cs := toLowerGo (paramGet mp "charset")
        if ¬ cs = "" ∧ ¬ cs = "utf-8" ∧ ¬ cs = "utf8" then some (Error InvalidArgument "unsupported encoding")
        else none

/-- encoding/json object decoding of the payload struct: each object key
matching field tag "data" (case-insensitively) decodes its value into the
current target via the user type's decoder; other keys are ignored. -/
def decodeDataField (dec : τ → Json → Except String τ) : τ → List (String × Json) → Except String τ
  | cur, [] => Except.ok cur
  | cur, (k, v) :: rest =>
    if toLowerGo k = "data" then
      match dec cur v with
      | Except.error e => Except.error e
      | Except.ok cur2 => decodeDataField dec cur2 rest
    else decodeDataField dec cur rest

/-- callable.go lines 162-168: json.Decoder.Decode into the payload struct
(one field Data, json tag "data") with the handler instance as the Data
target: a malformed body is a decode error; a JSON null is a no-op; a JSON
object decodes its data field (if any) into the target; any other
top-level value is a type error. -/
def decodePayload (dec : τ → Json → Except String τ) (cur : τ) (body : Except String Json) : Except String τ :=
  match body with
  | Except.error e => Except.error e
  | Except.ok Json.null => Except.ok cur
  | Except.ok (Json.obj kvs) => decodeDataField dec cur kvs
  | Except.ok _ => Except.error "json: cannot unmarshal value into Go value of type struct"

/-- callable.go lines 156-160: the actual-response CORS headers of
`handlePost`: add Vary Origin, and echo the Origin header when present. -/
def corsActual (w : ResponseWriter) (r : HttpRequest) : ResponseWriter :=
  let w := { w with header := headerAdd w.header "Vary" "Origin" }
  let origin := headerGet r.headers "Origin"
  if ¬ origin = "" then { w with header := headerAdd w.header "Access-Control-Allow-Origin" origin } else w

/-- callable.go lines 156-194: the remainder of `handlePost` after content
negotiation: add the actual-response CORS headers, decode the payload,
build the Call, invoke the handler, encode the success envelope. -/
def postAfterNegotiation (impl : RequestImpl τ) (c : Callable τ) (token : Option AuthToken)
    (w : ResponseWriter) (r : HttpRequest) : ResponseWriter × Option GoErr :=
  let w := corsActual w r
  match decodePayload impl.decodeInto c.request r.body with
  | Except.error e => (w, some (Error InvalidArgument ("failed to decode payload: " ++ e)))
  | Except.ok req =>
    let call : Call := { UID := (token.map AuthToken.UID).getD "", IID := headerGet r.headers "Firebase-Instance-ID-Token" }
    match impl.handle req call with
    | Except.error err => (w, some err)
    | Except.ok result =>
      let w := { w with header := headerAdd w.header "Content-Type" "application/json; charset=utf-8" }
      (writeBody w (Chunk.json (Json.obj [("data", result)])), none)

/-- callable.go lines 134-194: `handlePost`: identity verification, then
content negotiation, then CORS headers / decode / handler; returns the
writer state and the error handed back to `ServeHTTP` (if any). -/
def handlePost (impl : RequestImpl τ) (parse : String → Option (String × List (String × String)))
    (c : Callable τ) (w : ResponseWriter) (r : HttpRequest) : ResponseWriter × Option GoErr :=
  match validateToken c (headerGet r.headers "Authorization") with
  | Except.error e => (w, some (Error Unauthenticated ("invalid ID token: " ++ e)))
  | Except.ok token =>
    match negotiate parse (headerGet r.headers "Content-Type") with
    | some err => (w, err)
    | none => postAfterNegotiation impl c token w r

/-- callable.go lines 121-132: `handleCorsPreflight`. -/
def handleCorsPreflight (w : ResponseWriter) (r : HttpRequest) : ResponseWriter :=
  let w := { w with header := headerAdd w.header "Vary" "Origin" }
  let w := { w with header := headerAdd w.header "Vary" "Access-Control-Request-Headers" }
  let w := { w with header := headerAdd w.header "Access-Control-Allow-Methods" "POST" }
  let w :=
    if ¬ headerGet r.headers "Access-Control-Request-Headers" = "" then
      { w with header := headerAdd w.header "Access-Control-Allow-Headers" "*" }
    else w
  let origin := headerGet r.headers "Origin"
  let w :=
    if ¬ origin = "" then
      { w with header := headerAdd w.header "Access-Control-Allow-Origin" origin }
    else w
  writeHeader w 204

/-- callable.go lines 103-114: the error classification in `ServeHTTP`:
errors.As callError first, then errors.Is context.Canceled /
context.DeadlineExceeded, else Internal; the message is carried verbatim. -/
def classify (err : GoErr) : callError :=
  match err with
  | .call code msg => newError code msg
  | .canceled msg => newError Cancelled msg
  | .deadline msg => newError DeadlineExceeded msg
  | .generic msg => newError Internal msg

/-- callable.go lines 98-119: `ServeHTTP`: route by method; on POST, run
handlePost and write any resulting error via `callError.write`; other
methods get a 405 via http.Error. -/
def ServeHTTP (impl : RequestImpl τ) (parse : String → Option (String × List (String × String)))
    (c : Callable τ) (w : ResponseWriter) (r : HttpRequest) : ResponseWriter :=
  if r.method = "OPTIONS" then handleCorsPreflight w r
  else if r.method = "POST" then
    match handlePost impl parse c w r with
    | (w2, none) => w2
    | (w2, some err) => (classify err).write w2
  else httpError w "" 405

/-- response_test.go: the test handler target `testRequest` (field Who,
json tag "who"). -/
structure testRequest where
  Who : String
deriving Repr, DecidableEq

/-- encoding/json decoding for `testRequest`: an object decodes its "who"
string field (case-insensitive key, non-string value is a type error),
null is a no-op, anything else is a type error. -/
def testRequestDecode (cur : testRequest) (j : Json) : Except String testRequest :=
  match j with
  | Json.null => Except.ok cur
  | Json.obj kvs =>
    (kvs.foldlM (fun (acc : testRequest) kv =>
      if toLowerGo kv.1 = "who" then
        match kv.2 with
        | Json.str s => Except.ok { acc with Who := s }
        | Json.null => Except.ok acc
        | _ => Except.error "json: cannot unmarshal value into Go struct field testRequest.who of type string"
      else Except.ok acc) cur)
  | _ => Except.error "json: cannot unmarshal value into Go value of type testRequest"

/-- response_test.go: `testRequest.Handle`. -/
def testRequestHandle (r : testRequest) (call : Call) : Except GoErr Json :=
  if r.Who = "" then Except.error (Error NotFound "nobody to greet")
  else if r.Who = "error" then Except.error (GoErr.generic "some error")
  else if ¬ call.IID = "" then Except.ok (Json.obj [("greeting", Json.str ("IID: " ++ call.IID))])
  else Except.ok (Json.obj [("greeting", Json.str ("Hello " ++ r.Who ++ "!"))])

/-- The RequestImpl of the test handler. -/
def testImpl : RequestImpl testRequest :=
  { decodeInto := testRequestDecode, handle := testRequestHandle }

/-- mime.ParseMediaType restricted to the concrete header values used in
the concrete runs below, returning exactly what the Go function returns on
those inputs (lower-cased media type, parameter map). -/
def parseStub (s : String) : Option (String × List (String × String)) :=
  if s = "application/json" then some ("application/json", [])
  else if s = "application/json; charset=utf-8" then some ("application/json", [("charset", "utf-8")])
  else if s = "application/json; charset=iso-8859-1" then some ("application/json", [("charset", "iso-8859-1")])
  else if s = "text/plain" then some ("text/plain", [])
  else none

/-- An identity verifier that accepts every token with a fixed UID. -/
def acceptAll : AuthClient := fun _ => Except.ok { UID := "uid-1" }

/-- An identity verifier that rejects every token. -/
def rejectAll : AuthClient := fun _ => Except.error "ID token has been revoked"

/-- New(&testRequest setting) with no options: no auth, no logger. -/
def cPlain : Callable testRequest :=
  { request := { Who := "" }, authClient := none, authRequired := false, logger := none }

/-- A Callable with WithAuth(client, required=false). -/
def cAuthOptional : Callable testRequest :=
  { request := { Who := "" }, authClient := some acceptAll, authRequired := false, logger := none }

/-- A Callable with WithAuth(client, required=true). -/
def cAuthRequired : Callable testRequest :=
  { request := { Who := "" }, authClient := some acceptAll, authRequired := true, logger := none }

/-- A POST with no headers at all and an unreadable (empty) body. -/
def reqNoCT : HttpRequest :=
  { method := "POST", headers := [], body := Except.error "EOF" }

/-- A POST with Content-Type application/json and body the JSON object with
no fields. -/
def reqJson : HttpRequest :=
  { method := "POST", headers := [("Content-Type", "application/json")], body := Except.ok (Json.obj []) }

/-- A POST with an Origin header and a well-formed data envelope. -/
def reqJsonOrigin : HttpRequest :=
  { method := "POST",
    headers := [("Content-Type", "application/json"), ("Origin", "http://localhost")],
    body := Except.ok (Json.obj [("data", Json.obj [("who", Json.str "World")])]) }

/-- A POST with an unsupported charset parameter. -/
def reqCharset : HttpRequest :=
  { method := "POST",
    headers := [("Content-Type", "application/json; charset=iso-8859-1")],
    body := Except.ok (Json.obj []) }

/-- An OPTIONS preflight with Origin and Access-Control-Request-Headers. -/
def reqPreflight : HttpRequest :=
  { method := "OPTIONS",
    headers := [("Origin", "http://localhost"), ("Access-Control-Request-Headers", "content-type")],
    body := Except.error "EOF" }

/-- Every row present in the statuses table carries an HTTP code of at
least 400. -/
theorem statuses_some_ge (k : StatusCode) (s : String × Nat) (hs : statuses k = some s) :
    400 ≤ s.2 := by
  unfold statuses at hs
  by_cases h0 : k = InvalidArgument
  · rw [if_pos h0] at hs; injection hs with h; subst h; decide
  rw [if_neg h0] at hs
  by_cases h1 : k = FailedPrecondition
  · rw [if_pos h1] at hs; injection hs with h; subst h; decide
  rw [if_neg h1] at hs
  by_cases h2 : k = OutOfRange
  · rw [if_pos h2] at hs; injection hs with h; subst h; decide
  rw [if_neg h2] at hs
  by_cases h3 : k = Unauthenticated
  · rw [if_pos h3] at hs; injection hs with h; subst h; decide
  rw [if_neg h3] at hs
  by_cases h4 : k = PermissionDenied
  · rw [if_pos h4] at hs; injection hs with h; subst h; decide
  rw [if_neg h4] at hs
  by_cases h5 : k = NotFound
  · rw [if_pos h5] at hs; injection hs with h; subst h; decide
  rw [if_neg h5] at hs
  by_cases h6 : k = Aborted
  · rw [if_pos h6] at hs; injection hs with h; subst h; decide
  rw [if_neg h6] at hs
  by_cases h7 : k = AlreadyExists
  · rw [if_pos h7] at hs; injection hs with h; subst h; decide
  rw [if_neg h7] at hs
  by_cases h8 : k = ResourceExhausted
  · rw [if_pos h8] at hs; injection hs with h; subst h; decide
  rw [if_neg h8] at hs
  by_cases h9 : k = Cancelled
  · rw [if_pos h9] at hs; injection hs with h; subst h; decide
  rw [if_neg h9] at hs
  by_cases h10 : k = DataLoss
  · rw [if_pos h10] at hs; injection hs with h; subst h; decide
  rw [if_neg h10] at hs
  by_cases h11 : k = Unknown
  · rw [if_pos h11] at hs; injection hs with h; subst h; decide
  rw [if_neg h11] at hs
  by_cases h12 : k = Internal
  · rw [if_pos h12] at hs; injection hs with h; subst h; decide
  rw [if_neg h12] at hs
  by_cases h13 : k = NotImplemented
  · rw [if_pos h13] at hs; injection hs with h; subst h; decide
  rw [if_neg h13] at hs
  by_cases h14 : k = Unavailable
  · rw [if_pos h14] at hs; injection hs with h; subst h; decide
  rw [if_neg h14] at hs
  by_cases h15 : k = DeadlineExceeded
  · rw [if_pos h15] at hs; injection hs with h; subst h; decide
  rw [if_neg h15] at hs
  exact Option.noConfusion hs

/-- Every row of the status table carries an HTTP code of at least 400, and
so does the Internal fallback. -/
theorem statusOf_code_ge (k : StatusCode) : 400 ≤ (statusOf k).2 := by
  unfold statusOf
  rcases hs : statuses k with _ | s
  · decide
  · exact statuses_some_ge k s hs

/-- `corsActual` leaves the committed status and the body untouched. -/
theorem corsActual_status (w : ResponseWriter) (r : HttpRequest) :
    (corsActual w r).status = w.status ∧ (corsActual w r).body = w.body := by
  unfold corsActual
  dsimp only
  split <;> exact ⟨rfl, rfl⟩

/-- `corsActual` adds Vary Origin, echoes the Origin header when present,
and keeps every existing header entry. -/
theorem corsActual_header (w : ResponseWriter) (r : HttpRequest) :
    ("Vary", "Origin") ∈ (corsActual w r).header ∧
    (¬ headerGet r.headers "Origin" = "" →
      ("Access-Control-Allow-Origin", headerGet r.headers "Origin") ∈ (corsActual w r).header) ∧
    (∀ p, p ∈ w.header → p ∈ (corsActual w r).header) := by
  unfold corsActual
  dsimp only
  split <;> simp_all [headerAdd]

/-- The header state after `callError.write` is the incoming header with
Content-Type set to application/json. -/
theorem write_header_eq (e : callError) (w : ResponseWriter) :
    (e.write w).header = headerSet w.header "Content-Type" "application/json" := by
  cases hw : w.status <;>
    simp [callError.write, writeBody, writeHeader, hw]

/-- `callError.write` keeps every header entry other than Content-Type. -/
theorem write_keeps_header (e : callError) (w : ResponseWriter) (p : String × String)
    (hp : p ∈ w.header) (hk : ¬ p.1 = "Content-Type") : p ∈ (e.write w).header := by
  rw [write_header_eq]
  unfold headerSet
  simp only [List.mem_append, List.mem_filter]
  left
  exact ⟨hp, by simp [hk]⟩

/-- `callError.write` on a writer with no committed status commits exactly
the error's HTTP code. -/
theorem write_status (e : callError) (w : ResponseWriter) (h : w.status = none) :
    (e.write w).status = some e.code := by
  simp [callError.write, writeBody, writeHeader, h]

/-- When `postAfterNegotiation` hands an error back, the writer it returns
is exactly the CORS-augmented writer: no status or body was committed. -/
theorem postAfterNegotiation_error (impl : RequestImpl τ) (c : Callable τ) (token : Option AuthToken)
    (w w2 : ResponseWriter) (r : HttpRequest) (err : GoErr)
    (h : postAfterNegotiation impl c token w r = (w2, some err)) : w2 = corsActual w r := by
  unfold postAfterNegotiation at h
  rcases hd : decodePayload impl.decodeInto c.request r.body with e | req <;>
    simp only [hd] at h
  · simp only [Prod.mk.injEq] at h
    exact h.1.symm
  · rcases hh : impl.handle req
      { UID := (token.map AuthToken.UID).getD "", IID := headerGet r.headers "Firebase-Instance-ID-Token" }
      with e2 | result <;> simp only [hh] at h
    · simp only [Prod.mk.injEq] at h
      exact h.1.symm
    · simp at h

/-- When `handlePost` hands an error back, the writer it returns is either
the incoming writer (identity-verification or negotiation failure) or the
CORS-augmented incoming writer (decode or handler failure); in both cases
no status or body was committed. -/
theorem handlePost_error (impl : RequestImpl τ) (parse : String → Option (String × List (String × String)))
    (c : Callable τ) (w w2 : ResponseWriter) (r : HttpRequest) (err : GoErr)
    (h : handlePost impl parse c w r = (w2, some err)) : w2 = w ∨ w2 = corsActual w r := by
  unfold handlePost at h
  rcases hv : validateToken c (headerGet r.headers "Authorization") with e | token <;>
    simp only [hv] at h
  · left
    simp only [Prod.mk.injEq] at h
    exact h.1.symm
  · rcases hn : negotiate parse (headerGet r.headers "Content-Type") with _ | e <;>
      simp only [hn] at h
    · right
      exact postAfterNegotiation_error impl c token w w2 r err h
    · left
      simp only [Prod.mk.injEq] at h
      exact h.1.symm

/-- `writeBody` never changes the header state. -/
theorem writeBody_header (w : ResponseWriter) (ch : Chunk) : (writeBody w ch).header = w.header := by
  unfold writeBody writeHeader
  cases hw : w.status <;> simp [hw]

/-- Whatever the decode and handler outcomes, the writer returned by
`postAfterNegotiation` keeps every header entry added by `corsActual`. -/
theorem postAfterNegotiation_header (impl : RequestImpl τ) (c : Callable τ) (token : Option AuthToken)
    (w : ResponseWriter) (r : HttpRequest) :
    ∀ p, p ∈ (corsActual w r).header → p ∈ (postAfterNegotiation impl c token w r).1.header := by
  intro p hp
  unfold postAfterNegotiation
  rcases hd : decodePayload impl.decodeInto c.request r.body with e | req <;> simp only [hd]
  · exact hp
  · rcases hh : impl.handle req
      { UID := (token.map AuthToken.UID).getD "", IID := headerGet r.headers "Firebase-Instance-ID-Token" }
      with e2 | result <;> simp only [hh]
    · exact hp
    · rw [writeBody_header]
      simp only [headerAdd, List.mem_append]
      left
      exact hp

/-- Folding the construction options: once an auth option built by
`WithAuth` is in the list, the resulting auth client is set (and hence
non-nil, since `WithAuth` refuses a nil client). -/
theorem foldl_applyOption_auth (opts : List ConfigOption) (acc : Callable τ)
    (hapi : ∀ o ∈ opts, (∃ cl req, some o = WithAuth cl req) ∨ (∃ l, o = WithLogger l))
    (h : ¬ acc.authClient = none ∨ ∃ cl req, ConfigOption.auth cl req ∈ opts) :
    ¬ (opts.foldl applyOption acc).authClient = none := by
  induction opts generalizing acc with
  | nil =>
    rcases h with h | ⟨cl, req, hmem⟩
    · exact h
    · cases hmem
  | cons o rest ih =>
    simp only [List.foldl_cons]
    refine ih (applyOption acc o) (fun o2 ho2 => hapi o2 (List.mem_cons_of_mem o ho2)) ?_
    cases o with
    | auth cl req =>
      left
      rcases hapi (ConfigOption.auth cl req) (List.mem_cons_self ..) with ⟨cl2, req2, heq⟩ | ⟨l, heq⟩
      · cases cl2 with
        | none => exact absurd heq (by simp [WithAuth])
        | some a =>
          simp only [WithAuth, Option.some.injEq] at heq
          cases heq
          simp [applyOption]
      · exact absurd heq (by simp [WithLogger])
    | logger l =>
      rcases h with h | ⟨cl, req, hmem⟩
      · left
        simpa [applyOption] using h
      · rcases List.mem_cons.mp hmem with heq | hmem2
        · exact absurd heq (by simp)
        · right
          exact ⟨cl, req, hmem2⟩

/-- The object entries of the payload all miss the data field (after Go's
case-insensitive field matching): decoding leaves the target unchanged. -/
theorem decodeDataField_no_match (dec : τ → Json → Except String τ) (cur : τ)
    (kvs : List (String × Json)) (h : ∀ p ∈ kvs, ¬ toLowerGo p.1 = "data") :
    decodeDataField dec cur kvs = Except.ok cur := by
  induction kvs with
  | nil => rfl
  | cons p rest ih =>
    obtain ⟨k, v⟩ := p
    have hk := h (k, v) (List.mem_cons_self ..)
    simp only [decodeDataField, if_neg hk]
    exact ih (fun q hq => h q (List.mem_cons_of_mem _ hq))

/-- C6: for every StatusCode in the enumeration, constructing an error via
`newError` yields exactly the canonical (status string, HTTP code) pair of
the section 6 table, and for every kind value outside the enumeration the
result equals that of Internal. -/
theorem c6_status_table :
    (∀ m : String,
      ((newError InvalidArgument m).status, (newError InvalidArgument m).code) = ("INVALID_ARGUMENT", 400) ∧
      ((newError FailedPrecondition m).status, (newError FailedPrecondition m).code) = ("FAILED_PRECONDITION", 400) ∧
      ((newError OutOfRange m).status, (newError OutOfRange m).code) = ("OUT_OF_RANGE", 400) ∧
      ((newError Unauthenticated m).status, (newError Unauthenticated m).code) = ("UNAUTHENTICATED", 401) ∧
      ((newError PermissionDenied m).status, (newError PermissionDenied m).code) = ("PERMISSION_DENIED", 403) ∧
      ((newError NotFound m).status, (newError NotFound m).code) = ("NOT_FOUND", 404) ∧
      ((newError Aborted m).status, (newError Aborted m).code) = ("ABORTED", 409) ∧
      ((newError AlreadyExists m).status, (newError AlreadyExists m).code) = ("ALREADY_EXISTS", 409) ∧
      ((newError ResourceExhausted m).status, (newError ResourceExhausted m).code) = ("RESOURCE_EXHAUSTED", 429) ∧
      ((newError Cancelled m).status, (newError Cancelled m).code) = ("CANCELLED", 499) ∧
      ((newError DataLoss m).status, (newError DataLoss m).code) = ("DATA_LOSS", 500) ∧
      ((newError Unknown m).status, (newError Unknown m).code) = ("UNKNOWN", 500) ∧
      ((newError Internal m).status, (newError Internal m).code) = ("INTERNAL", 500) ∧
      ((newError NotImplemented m).status, (newError NotImplemented m).code) = ("NOT_IMPLEMENTED", 501) ∧
      ((newError Unavailable m).status, (newError Unavailable m).code) = ("UNAVAILABLE", 503) ∧
      ((newError DeadlineExceeded m).status, (newError DeadlineExceeded m).code) = ("DEADLINE_EXCEEDED", 504)) ∧
    (∀ (k : Int) (m : String), k < 0 ∨ 15 < k → newError k m = newError Internal m) := by
  constructor
  · intro m
    exact ⟨rfl, rfl, rfl, rfl, rfl, rfl, rfl, rfl, rfl, rfl, rfl, rfl, rfl, rfl, rfl, rfl⟩
  · intro k m h
    have hs : statuses k = none := by
      unfold statuses
      rw [if_neg (show ¬ k = InvalidArgument by show ¬ k = (0 : Int); omega),
          if_neg (show ¬ k = FailedPrecondition by show ¬ k = (1 : Int); omega),
          if_neg (show ¬ k = OutOfRange by show ¬ k = (2 : Int); omega),
          if_neg (show ¬ k = Unauthenticated by show ¬ k = (3 : Int); omega),
          if_neg (show ¬ k = PermissionDenied by show ¬ k = (4 : Int); omega),
          if_neg (show ¬ k = NotFound by show ¬ k = (5 : Int); omega),
          if_neg (show ¬ k = Aborted by show ¬ k = (6 : Int); omega),
          if_neg (show ¬ k = AlreadyExists by show ¬ k = (7 : Int); omega),
          if_neg (show ¬ k = ResourceExhausted by show ¬ k = (8 : Int); omega),
          if_neg (show ¬ k = Cancelled by show ¬ k = (9 : Int); omega),
          if_neg (show ¬ k = DataLoss by show ¬ k = (10 : Int); omega),
          if_neg (show ¬ k = Unknown by show ¬ k = (11 : Int); omega),
          if_neg (show ¬ k = Internal by show ¬ k = (12 : Int); omega),
          if_neg (show ¬ k = NotImplemented by show ¬ k = (13 : Int); omega),
          if_neg (show ¬ k = Unavailable by show ¬ k = (14 : Int); omega),
          if_neg (show ¬ k = DeadlineExceeded by show ¬ k = (15 : Int); omega)]
    unfold newError statusOf
    rw [hs]
    rfl

/-- Witness for C6 at concrete inputs: the InvalidArgument row, and the
out-of-range kind -17 falling back to Internal. -/
theorem c6_witness :
    ((newError InvalidArgument "x").status, (newError InvalidArgument "x").code) = ("INVALID_ARGUMENT", 400) ∧
    newError (-17) "x" = newError Internal "x" := by
  refine ⟨(c6_status_table.1 "x").1, c6_status_table.2 (-17) "x" ?_⟩
  omega

/-- C2 (code bug): with identity verification configured but NOT required,
a POST without an Authorization header does not proceed to the handler: it
fails Unauthenticated("invalid ID token: unsupported Authorization
header") and the response status is 401. -/
theorem c2_optional_auth_rejects_missing_header :
    handlePost testImpl parseStub cAuthOptional newRecorder reqJson =
      (newRecorder, some (Error Unauthenticated "invalid ID token: unsupported Authorization header")) ∧
    (ServeHTTP testImpl parseStub cAuthOptional newRecorder reqJson).status = some 401 :=
  ⟨rfl, rfl⟩

/-- C4 (code bug): every error response, including those of the normal
dispatch error path (here: handler NotFound, written by ServeHTTP via
callError.write), carries Content-Type "application/json" WITHOUT the
charset suffix — although the repository's own tests assert
"application/json; charset=utf-8" on both paths. -/
theorem c4_error_content_type_has_no_charset :
    headerGet ((newError Unauthenticated "test message with param").write newRecorder).header "Content-Type"
      = "application/json" ∧
    headerGet (ServeHTTP testImpl parseStub cPlain newRecorder reqJson).header "Content-Type"
      = "application/json" ∧
    (ServeHTTP testImpl parseStub cPlain newRecorder reqJson).status = some 404 :=
  ⟨rfl, rfl, rfl⟩

/-- C7: handler failures are classified exactly as in ServeHTTP: a typed
callable error (created via Error) is used as-is, the cancellation signal
maps to Cancelled, the deadline signal to DeadlineExceeded, and anything
else to Internal with the message carried verbatim; the classified HTTP
code is never in the 2xx range, and the response written for any POST
whose handlePost fails carries exactly the classified code. -/
theorem c7_error_classification :
    (∀ (code : StatusCode) (msg : String), classify (Error code msg) = newError code msg) ∧
    (∀ msg, classify (GoErr.canceled msg) = newError Cancelled msg) ∧
    (∀ msg, classify (GoErr.deadline msg) = newError DeadlineExceeded msg) ∧
    (∀ msg, classify (GoErr.generic msg) = newError Internal msg ∧
      (classify (GoErr.generic msg)).message = msg) ∧
    (∀ e : GoErr, ¬ (200 ≤ (classify e).code ∧ (classify e).code ≤ 299)) ∧
    (∀ (τ : Type) (impl : RequestImpl τ) (parse : String → Option (String × List (String × String)))
       (c : Callable τ) (r : HttpRequest) (w2 : ResponseWriter) (err : GoErr),
       r.method = "POST" →
       handlePost impl parse c newRecorder r = (w2, some err) →
       (ServeHTTP impl parse c newRecorder r).status = some (classify err).code) := by
  refine ⟨fun code msg => rfl, fun msg => rfl, fun msg => rfl, fun msg => ⟨rfl, rfl⟩, ?_, ?_⟩
  · intro e h
    rcases h with ⟨hl, hr⟩
    cases e with
    | call code msg =>
      have h4 := statusOf_code_ge code
      simp [classify, newError] at hl hr
      omega
    | canceled msg =>
      have h4 := statusOf_code_ge Cancelled
      simp [classify, newError] at hl hr
      omega
    | deadline msg =>
      have h4 := statusOf_code_ge DeadlineExceeded
      simp [classify, newError] at hl hr
      omega
    | generic msg =>
      have h4 := statusOf_code_ge Internal
      simp [classify, newError] at hl hr
      omega
  · intro τ impl parse c r w2 err hm h
    have hw := handlePost_error impl parse c newRecorder w2 r err h
    have hst : w2.status = none := by
      rcases hw with rfl | rfl
      · rfl
      · exact (corsActual_status newRecorder r).1
    unfold ServeHTTP
    rw [hm, if_neg (by decide), if_pos rfl, h]
    exact write_status (classify err) w2 hst

/-- Witness for C7 at a concrete failing POST: the handler returns a typed
NotFound error and the response status is its mapped code 404, which is
not a 2xx. -/
theorem c7_witness :
    (ServeHTTP testImpl parseStub cPlain newRecorder reqJson).status =
      some (classify (Error NotFound "nobody to greet")).code ∧
    ¬ (200 ≤ (classify (Error NotFound "nobody to greet")).code ∧
        (classify (Error NotFound "nobody to greet")).code ≤ 299) := by
  refine ⟨c7_error_classification.2.2.2.2.2 testRequest testImpl parseStub cPlain reqJson
      ⟨[("Vary", "Origin")], none, []⟩ (Error NotFound "nobody to greet") rfl ?_,
    c7_error_classification.2.2.2.2.1 (Error NotFound "nobody to greet")⟩
  rfl

/-- C8: on a POST (with identity verification not configured) the
Content-Type checks apply exactly these rules in source order: missing or
empty header fails InvalidArgument("missing content type"); an unparsable
header fails InvalidArgument("invalid content type"); a parsed media type
other than application/json — case-insensitively, using that
mime.ParseMediaType returns the media type lower-cased — fails
InvalidArgument("unsupported content type"); a charset parameter whose
lower-cased value is neither utf-8 nor utf8 fails
InvalidArgument("unsupported encoding"); and when all checks pass the
request proceeds to `postAfterNegotiation` (CORS headers, body decoding,
handler), so validation runs before body decoding and no parameter other
than charset is consulted. -/
theorem c8_content_negotiation :
    ∀ (τ : Type) (impl : RequestImpl τ) (parse : String → Option (String × List (String × String)))
      (c : Callable τ) (w : ResponseWriter) (r : HttpRequest),
      c.authClient = none →
      ((headerGet r.headers "Content-Type" = "" →
          handlePost impl parse c w r = (w, some (Error InvalidArgument "missing content type"))) ∧
       (¬ headerGet r.headers "Content-Type" = "" →
          parse (headerGet r.headers "Content-Type") = none →
          handlePost impl parse c w r = (w, some (Error InvalidArgument "invalid content type"))) ∧
       (∀ mt mp, ¬ headerGet r.headers "Content-Type" = "" →
          parse (headerGet r.headers "Content-Type") = some (mt, mp) →
          mt = toLowerGo mt → ¬ toLowerGo mt = "application/json" →
          handlePost impl parse c w r = (w, some (Error InvalidArgument "unsupported content type"))) ∧
       (∀ mt mp, ¬ headerGet r.headers "Content-Type" = "" →
          parse (headerGet r.headers "Content-Type") = some (mt, mp) →
          mt = "application/json" →
          (¬ toLowerGo (paramGet mp "charset") = "" ∧ ¬ toLowerGo (paramGet mp "charset") = "utf-8" ∧
            ¬ toLowerGo (paramGet mp "charset") = "utf8") →
          handlePost impl parse c w r = (w, some (Error InvalidArgument "unsupported encoding"))) ∧
       (∀ mt mp, ¬ headerGet r.headers "Content-Type" = "" →
          parse (headerGet r.headers "Content-Type") = some (mt, mp) →
          mt = "application/json" →
          (toLowerGo (paramGet mp "charset") = "" ∨ toLowerGo (paramGet mp "charset") = "utf-8" ∨
            toLowerGo (paramGet mp "charset") = "utf8") →
          handlePost impl parse c w r = postAfterNegotiation impl c none w r)) := by
  intro τ impl parse c w r hAuth
  have hv : validateToken c (headerGet r.headers "Authorization") = Except.ok none := by
    unfold validateToken
    rw [hAuth]
  refine ⟨?_, ?_, ?_, ?_, ?_⟩
  · intro hct
    simp only [handlePost, hv, negotiate, hct, if_pos rfl, if_true]
  · intro hct hparse
    simp only [handlePost, hv, negotiate, if_neg hct, hparse]
  · intro mt mp hct hparse hlow hne
    have hne2 : ¬ mt = "application/json" := by
      rw [hlow]
      exact hne
    simp only [handlePost, hv, negotiate, if_neg hct, hparse, if_pos hne2]
  · intro mt mp hct hparse hmt hcs
    have hjson : ¬ ¬ mt = "application/json" := fun hc => hc hmt
    simp only [handlePost, hv, negotiate, if_neg hct, hparse, if_neg hjson, if_pos hcs]
  · intro mt mp hct hparse hmt hcs
    have hjson : ¬ ¬ mt = "application/json" := fun hc => hc hmt
    have hcs2 : ¬ (¬ toLowerGo (paramGet mp "charset") = "" ∧
        ¬ toLowerGo (paramGet mp "charset") = "utf-8" ∧
        ¬ toLowerGo (paramGet mp "charset") = "utf8") := by
      rcases hcs with h | h | h
      · exact fun hc => hc.1 h
      · exact fun hc => hc.2.1 h
      · exact fun hc => hc.2.2 h
    simp only [handlePost, hv, negotiate, if_neg hct, hparse, if_neg hjson, if_neg hcs2]

/-- Witness for C8 at concrete inputs: an unsupported charset fails with
"unsupported encoding", and a missing Content-Type fails with "missing
content type". -/
theorem c8_witness :
    handlePost testImpl parseStub cPlain newRecorder reqCharset =
      (newRecorder, some (Error InvalidArgument "unsupported encoding")) ∧
    handlePost testImpl parseStub cPlain newRecorder reqNoCT =
      (newRecorder, some (Error InvalidArgument "missing content type")) := by
  constructor
  · exact (c8_content_negotiation testRequest testImpl parseStub cPlain newRecorder reqCharset
      rfl).2.2.2.1 "application/json" [("charset", "iso-8859-1")] (by decide) rfl rfl
      ⟨by decide, by decide, by decide⟩
  · exact (c8_content_negotiation testRequest testImpl parseStub cPlain newRecorder reqNoCT
      rfl).1 rfl

/-- C9: every OPTIONS request gets a preflight response that always
carries Vary Origin, Vary Access-Control-Request-Headers and
Access-Control-Allow-Methods POST; it carries Access-Control-Allow-Headers
* iff the request had a non-empty Access-Control-Request-Headers header,
and Access-Control-Allow-Origin echoing Origin iff an Origin header was
present; the status is always 204 with an empty body. -/
theorem c9_preflight :
    ∀ (τ : Type) (impl : RequestImpl τ) (parse : String → Option (String × List (String × String)))
      (c : Callable τ) (r : HttpRequest),
      r.method = "OPTIONS" →
      (headerValues (ServeHTTP impl parse c newRecorder r).header "Vary"
         = ["Origin", "Access-Control-Request-Headers"] ∧
       headerValues (ServeHTTP impl parse c newRecorder r).header "Access-Control-Allow-Methods"
         = ["POST"] ∧
       (¬ headerGet r.headers "Access-Control-Request-Headers" = "" →
         headerValues (ServeHTTP impl parse c newRecorder r).header "Access-Control-Allow-Headers"
           = ["*"]) ∧
       (headerGet r.headers "Access-Control-Request-Headers" = "" →
         headerValues (ServeHTTP impl parse c newRecorder r).header "Access-Control-Allow-Headers"
           = []) ∧
       (¬ headerGet r.headers "Origin" = "" →
         headerValues (ServeHTTP impl parse c newRecorder r).header "Access-Control-Allow-Origin"
           = [headerGet r.headers "Origin"]) ∧
       (headerGet r.headers "Origin" = "" →
         headerValues (ServeHTTP impl parse c newRecorder r).header "Access-Control-Allow-Origin"
           = []) ∧
       (ServeHTTP impl parse c newRecorder r).status = some 204 ∧
       (ServeHTTP impl parse c newRecorder r).body = []) := by
  intro τ impl parse c r hm
  unfold ServeHTTP
  rw [hm, if_pos rfl]
  by_cases hA : headerGet r.headers "Access-Control-Request-Headers" = "" <;>
    by_cases hO : headerGet r.headers "Origin" = "" <;>
      simp [handleCorsPreflight, writeHeader, newRecorder, headerValues, headerAdd, hA, hO]

/-- Witness for C9 at a concrete preflight request carrying both Origin
and Access-Control-Request-Headers. -/
theorem c9_witness :
    headerValues (ServeHTTP testImpl parseStub cPlain newRecorder reqPreflight).header "Vary"
      = ["Origin", "Access-Control-Request-Headers"] ∧
    headerValues (ServeHTTP testImpl parseStub cPlain newRecorder reqPreflight).header
      "Access-Control-Allow-Origin" = ["http://localhost"] ∧
    (ServeHTTP testImpl parseStub cPlain newRecorder reqPreflight).status = some 204 := by
  have h := c9_preflight testRequest testImpl parseStub cPlain reqPreflight rfl
  exact ⟨h.1, h.2.2.2.2.1 (by decide), h.2.2.2.2.2.2.1⟩

/-- Counterexample to C1 as stated: a POST with identity verification not
configured whose content negotiation fails (missing Content-Type) gets NO
CORS headers: the Vary values of the response are empty. -/
theorem c1_counterexample :
    cPlain.authClient = none ∧
    headerValues (ServeHTTP testImpl parseStub cPlain newRecorder reqNoCT).header "Vary" = [] ∧
    (ServeHTTP testImpl parseStub cPlain newRecorder reqNoCT).status = some 400 :=
  ⟨rfl, rfl, rfl⟩

/-- Counterexample to C3 as stated: with verification required and the
Authorization header absent, the error message is
"invalid ID token: missing Authorization header", not the claimed bare
"missing Authorization header". -/
theorem c3_counterexample :
    (handlePost testImpl parseStub cAuthRequired newRecorder reqJson).2 =
      some (Error Unauthenticated "invalid ID token: missing Authorization header") ∧
    ¬ (Error Unauthenticated "invalid ID token: missing Authorization header"
        = Error Unauthenticated "missing Authorization header") :=
  ⟨rfl, by decide⟩

/-- Counterexample to C5 as stated: the body that is the JSON object with
no fields (so no data field at all) is NOT rejected: decoding succeeds
unchanged and the request reaches the handler. -/
theorem c5_counterexample :
    decodePayload testRequestDecode { Who := "" } (Except.ok (Json.obj [])) = Except.ok { Who := "" } ∧
    (handlePost testImpl parseStub cPlain newRecorder reqJson).2 = some (Error NotFound "nobody to greet") :=
  ⟨rfl, rfl⟩

/-- C10: WithAuth with a nil auth client panics (modelled as `none`) for
every required-flag value, and a Callable constructed by New from options
produced by the public WithAuth / WithLogger constructors holds a non-nil
auth client whenever an auth option was configured. -/
theorem c10_with_auth_nil_panics :
    (∀ required, WithAuth none required = none) ∧
    (∀ (τ : Type) (request : τ) (opts : List ConfigOption),
      (∀ o ∈ opts, (∃ cl req, some o = WithAuth cl req) ∨ (∃ l, o = WithLogger l)) →
      (∃ cl req, ConfigOption.auth cl req ∈ opts) →
      ¬ (New request opts).authClient = none) := by
  constructor
  · intro required
    rfl
  · intro τ request opts hapi hex
    unfold New
    exact foldl_applyOption_auth opts _ hapi (Or.inr hex)

/-- Witness for C10: WithAuth(nil, true) panics, and a Callable built with
a concrete auth option holds a non-nil client. -/
theorem c10_witness :
    WithAuth none true = none ∧
    ¬ (New ({ Who := "" } : testRequest)
        [ConfigOption.auth (some acceptAll) true]).authClient = none := by
  refine ⟨c10_with_auth_nil_panics.1 true,
    c10_with_auth_nil_panics.2 testRequest { Who := "" } [ConfigOption.auth (some acceptAll) true]
      ?_ ⟨some acceptAll, true, List.mem_singleton.mpr rfl⟩⟩
  intro o ho
  have := List.mem_singleton.mp ho
  subst this
  left
  exact ⟨some acceptAll, true, rfl⟩

/-- C3 amended: with identity verification configured, all three causes
produce Unauthenticated with the message wrapped by handlePost's single
"invalid ID token: " prefix: an absent header (when required) yields
"invalid ID token: missing Authorization header", a header not of the
form Bearer token yields "invalid ID token: unsupported Authorization
header", and a verifier failure yields "invalid ID token: " followed by
the underlying message. -/
theorem c3_auth_error_messages :
    ∀ (τ : Type) (impl : RequestImpl τ) (parse : String → Option (String × List (String × String)))
      (c : Callable τ) (verify : AuthClient) (w : ResponseWriter) (r : HttpRequest),
      c.authClient = some verify →
      ((fields (headerGet r.headers "Authorization") = [] → c.authRequired = true →
          handlePost impl parse c w r
            = (w, some (Error Unauthenticated "invalid ID token: missing Authorization header"))) ∧
       (¬ fields (headerGet r.headers "Authorization") = [] →
          (∀ t, ¬ fields (headerGet r.headers "Authorization") = ["Bearer", t]) →
          handlePost impl parse c w r
            = (w, some (Error Unauthenticated "invalid ID token: unsupported Authorization header"))) ∧
       (∀ t m, fields (headerGet r.headers "Authorization") = ["Bearer", t] →
          verify t = Except.error m →
          handlePost impl parse c w r
            = (w, some (Error Unauthenticated ("invalid ID token: " ++ m))))) := by
  intro τ impl parse c verify w r hc
  refine ⟨?_, ?_, ?_⟩
  · intro hp hreq
    have hv : validateToken c (headerGet r.headers "Authorization")
        = Except.error "missing Authorization header" := by
      unfold validateToken
      rw [hc]
      simp [hp, hreq]
    simp only [handlePost, hv]
    rfl
  · intro hne hnb
    have hv : validateToken c (headerGet r.headers "Authorization")
        = Except.error "unsupported Authorization header" := by
      unfold validateToken
      rw [hc]
      rcases hp : fields (headerGet r.headers "Authorization") with _ | ⟨b, rest⟩
      · exact absurd hp hne
      · rcases rest with _ | ⟨t, rest2⟩
        · simp
        · rcases rest2 with _ | ⟨u, rest3⟩
          · have hb : ¬ b = "Bearer" := by
              intro hbeq
              exact hnb t (by rw [hp, hbeq])
            simp [hb]
          · simp
    simp only [handlePost, hv]
    rfl
  · intro t m hp hm
    have hv : validateToken c (headerGet r.headers "Authorization") = Except.error m := by
      unfold validateToken
      rw [hc]
      simp [hp, hm]
    simp only [handlePost, hv]

/-- Witness for C3 (amended) at a concrete Callable with required
verification and a request without an Authorization header. -/
theorem c3_witness :
    handlePost testImpl parseStub cAuthRequired newRecorder reqJson
      = (newRecorder, some (Error Unauthenticated "invalid ID token: missing Authorization header")) :=
  (c3_auth_error_messages testRequest testImpl parseStub cAuthRequired acceptAll newRecorder reqJson
    rfl).1 rfl rfl

/-- C1 amended: CORS actual-response headers appear on a POST response
exactly when identity verification succeeds (or is not configured) AND
content negotiation succeeds. Presence direction: under those two
hypotheses the response carries Vary Origin (and the echoed
Access-Control-Allow-Origin when an Origin header is present), whatever
the decode and handler outcomes. Absence directions: when identity
verification fails, and likewise when it succeeds but content negotiation
fails, the response carries no Vary value and no
Access-Control-Allow-Origin value at all. -/
theorem c1_cors_headers :
    ∀ (τ : Type) (impl : RequestImpl τ) (parse : String → Option (String × List (String × String)))
      (c : Callable τ) (r : HttpRequest),
      r.method = "POST" →
      ((∀ token, validateToken c (headerGet r.headers "Authorization") = Except.ok token →
          negotiate parse (headerGet r.headers "Content-Type") = none →
          (("Vary", "Origin") ∈ (ServeHTTP impl parse c newRecorder r).header ∧
           (¬ headerGet r.headers "Origin" = "" →
             ("Access-Control-Allow-Origin", headerGet r.headers "Origin")
               ∈ (ServeHTTP impl parse c newRecorder r).header))) ∧
       (∀ e, validateToken c (headerGet r.headers "Authorization") = Except.error e →
          headerValues (ServeHTTP impl parse c newRecorder r).header "Vary" = [] ∧
          headerValues (ServeHTTP impl parse c newRecorder r).header "Access-Control-Allow-Origin"
            = []) ∧
       (∀ token err, validateToken c (headerGet r.headers "Authorization") = Except.ok token →
          negotiate parse (headerGet r.headers "Content-Type") = some err →
          headerValues (ServeHTTP impl parse c newRecorder r).header "Vary" = [] ∧
          headerValues (ServeHTTP impl parse c newRecorder r).header "Access-Control-Allow-Origin"
            = [])) := by
  intro τ impl parse c r hm
  refine ⟨?_, ?_, ?_⟩
  · intro token hv hn
    unfold ServeHTTP
    rw [hm, if_neg (by decide), if_pos rfl]
    have hp : handlePost impl parse c newRecorder r = postAfterNegotiation impl c token newRecorder r := by
      simp only [handlePost, hv, hn]
    rw [hp]
    have base1 := (corsActual_header newRecorder r).1
    have base2 := (corsActual_header newRecorder r).2.1
    have lift := postAfterNegotiation_header impl c token newRecorder r
    rcases hres : postAfterNegotiation impl c token newRecorder r with ⟨w2, err⟩
    have l1 : ("Vary", "Origin") ∈ w2.header := by
      have hx := lift _ base1
      rw [hres] at hx
      exact hx
    have l2 : ¬ headerGet r.headers "Origin" = "" →
        ("Access-Control-Allow-Origin", headerGet r.headers "Origin") ∈ w2.header := by
      intro ho
      have hx := lift _ (base2 ho)
      rw [hres] at hx
      exact hx
    cases err with
    | none => exact ⟨l1, l2⟩
    | some e =>
      exact ⟨write_keeps_header _ _ _ l1 (by decide),
        fun ho => write_keeps_header _ _ _ (l2 ho)
          (show ¬ "Access-Control-Allow-Origin" = "Content-Type" by decide)⟩
  · intro e hv
    have hp : handlePost impl parse c newRecorder r
        = (newRecorder, some (Error Unauthenticated ("invalid ID token: " ++ e))) := by
      simp only [handlePost, hv]
    unfold ServeHTTP
    rw [hm, if_neg (by decide), if_pos rfl, hp]
    exact ⟨rfl, rfl⟩
  · intro token err hv hn
    have hp : handlePost impl parse c newRecorder r = (newRecorder, some err) := by
      simp only [handlePost, hv, hn]
    unfold ServeHTTP
    rw [hm, if_neg (by decide), if_pos rfl, hp]
    exact ⟨rfl, rfl⟩

/-- Witness for C1 (amended) at concrete POSTs: presence on a request with
an Origin header whose negotiation passes; absence on an
identity-verification failure (required auth, no Authorization header)
and on a negotiation failure (no Content-Type header). -/
theorem c1_witness :
    (("Vary", "Origin") ∈ (ServeHTTP testImpl parseStub cPlain newRecorder reqJsonOrigin).header ∧
     ("Access-Control-Allow-Origin", "http://localhost")
       ∈ (ServeHTTP testImpl parseStub cPlain newRecorder reqJsonOrigin).header) ∧
    headerValues (ServeHTTP testImpl parseStub cAuthRequired newRecorder reqJson).header "Vary" = [] ∧
    headerValues (ServeHTTP testImpl parseStub cPlain newRecorder reqNoCT).header
      "Access-Control-Allow-Origin" = [] := by
  have h1 := c1_cors_headers testRequest testImpl parseStub cPlain reqJsonOrigin rfl
  have h2 := c1_cors_headers testRequest testImpl parseStub cAuthRequired reqJson rfl
  have h3 := c1_cors_headers testRequest testImpl parseStub cPlain reqNoCT rfl
  exact ⟨⟨(h1.1 none rfl rfl).1, (h1.1 none rfl rfl).2 (by decide)⟩,
    (h2.2.1 "missing Authorization header" rfl).1,
    (h3.2.2 none (Error InvalidArgument "missing content type") rfl rfl).2⟩

/-- C5 amended: decoding the payload fails (surfacing as InvalidArgument
with message "failed to decode payload: " plus the underlying error) iff
the body is malformed JSON, its top-level value is neither an object nor
null, or a present data field fails to deserialize; in particular a
top-level object without a data field, or a null body, is accepted
unchanged and NOT rejected. -/
theorem c5_decode_payload :
    ∀ (τ : Type) (dec : τ → Json → Except String τ) (cur : τ),
      ((∀ e, decodePayload dec cur (Except.error e) = Except.error e) ∧
       decodePayload dec cur (Except.ok Json.null) = Except.ok cur ∧
       (∀ kvs, (∀ p ∈ kvs, ¬ toLowerGo p.1 = "data") →
          decodePayload dec cur (Except.ok (Json.obj kvs)) = Except.ok cur) ∧
       (∀ v, decodePayload dec cur (Except.ok (Json.obj [("data", v)])) = dec cur v) ∧
       (∀ b, ∃ e, decodePayload dec cur (Except.ok (Json.bool b)) = Except.error e) ∧
       (∀ s, ∃ e, decodePayload dec cur (Except.ok (Json.str s)) = Except.error e) ∧
       (∀ n, ∃ e, decodePayload dec cur (Except.ok (Json.num n)) = Except.error e) ∧
       (∀ elems, ∃ e, decodePayload dec cur (Except.ok (Json.arr elems)) = Except.error e) ∧
       (∀ (impl : RequestImpl τ) (c : Callable τ) (token : Option AuthToken) (w : ResponseWriter)
          (r : HttpRequest) (e : String),
          impl.decodeInto = dec → c.request = cur →
          decodePayload dec cur r.body = Except.error e →
          (postAfterNegotiation impl c token w r).2
            = some (Error InvalidArgument ("failed to decode payload: " ++ e)))) := by
  intro τ dec cur
  refine ⟨fun e => rfl, rfl, ?_, ?_, fun b => ⟨_, rfl⟩, fun s => ⟨_, rfl⟩, fun n => ⟨_, rfl⟩,
    fun elems => ⟨_, rfl⟩, ?_⟩
  · intro kvs h
    exact decodeDataField_no_match dec cur kvs h
  · intro v
    show decodeDataField dec cur [("data", v)] = dec cur v
    simp only [decodeDataField, if_pos (show toLowerGo "data" = "data" from rfl)]
    cases hd : dec cur v <;> simp [decodeDataField]
  · intro impl c token w r e himpl hcur hb
    have hbody : decodePayload impl.decodeInto c.request r.body = Except.error e := by
      rw [himpl, hcur]
      exact hb
    simp only [postAfterNegotiation, hbody]

/-- Witness for C5 (amended) at concrete bodies: null accepted, an object
without a data field accepted, and an unreadable body surfacing as a
"failed to decode payload" error from postAfterNegotiation. -/
theorem c5_witness :
    decodePayload testRequestDecode { Who := "" } (Except.ok Json.null) = Except.ok { Who := "" } ∧
    decodePayload testRequestDecode { Who := "" } (Except.ok (Json.obj [("x", Json.num 1)]))
      = Except.ok { Who := "" } ∧
    (postAfterNegotiation testImpl cPlain none newRecorder reqNoCT).2
      = some (Error InvalidArgument "failed to decode payload: EOF") := by
  have h := c5_decode_payload testRequest testRequestDecode { Who := "" }
  refine ⟨h.2.1, h.2.2.1 [("x", Json.num 1)] ?_,
    h.2.2.2.2.2.2.2.2 testImpl cPlain none newRecorder reqNoCT "EOF" rfl rfl (h.1 "EOF")⟩
  intro p hp
  simp only [List.mem_singleton] at hp
  subst hp
  decide

end callable
